import Mathlib

/-!
Shallow embedding of `src/adminApi.js` (kongfig admin API facade).

The module under verification is a client facade over the Kong admin HTTP
API.  Its design-bearing logic is:
  * `getPaginatedJson` — GET a URI, reject on a non-ok status, and follow
    `next` links of the `\x7bdata, next\x7d` pagination envelope, concatenating
    pages;
  * `getPaginatedJsonCache` — an optional URI-keyed cache of the promises
    returned by `getPaginatedJson`;
  * module-level mutable caches (`pluginSchemasCache`, `kongVersionCache`,
    `resultsCache`) shared by every facade instance in the process;
  * `fetchConsumers` filtering, `fetchPluginSchemas` aggregation, and
    `requestEndpoint` cache invalidation.

JavaScript values flowing through the aggregator are untyped, so they are
modelled by the inductive `JsVal` below.  Asynchronous execution is
single-threaded cooperative (bluebird promises); a resolved computation is
modelled by its settled outcome `Except JsError JsVal`, a computation that
never settles by `none`, and the sequence of `requester.get` network calls
a computation performs is made explicit as a `List String` trace.
Unbounded recursion over `next` links is modelled with a fuel parameter:
fuel exhaustion returns an unsettled (`none`) outcome.
-/

namespace AdminApi

/-- Untyped JavaScript values as they appear in parsed JSON bodies, plus
`undefVal` for the result of reading an absent property. JSON object keys are
unique (later duplicates in a literal overwrite earlier ones at parse
time). -/
inductive JsVal where
  | undefVal : JsVal
  | num : Int → JsVal
  | str : String → JsVal
  | arr : List JsVal → JsVal
  | obj : List (String × JsVal) → JsVal

instance : Inhabited JsVal := ⟨JsVal.undefVal⟩

/-- Embeds `v.hasOwnProperty(key)`: true only for plain objects carrying
the key (arrays and primitives own none of the property names used by the
source). -/
def JsVal.hasOwn (v : JsVal) (key : String) : Bool :=
  match v with
  | .obj fields => fields.any (fun f => decide (f.1 = key))
  | _ => false

/-- Embeds property access `v[key]` / `v.key`: the stored value on a plain
object, `undefined` otherwise. -/
def JsVal.getOwn (v : JsVal) (key : String) : JsVal :=
  match v with
  | .obj fields =>
    match fields.find? (fun f => decide (f.1 = key)) with
    | some f => f.2
    | none => .undefVal
  | _ => .undefVal

/-- Embeds the truth value of `v.length < 100`: arrays and strings expose a
numeric `length`; on any other value `v.length` is `undefined` and the
comparison is false. -/
def JsVal.lengthLt100 (v : JsVal) : Bool :=
  match v with
  | .arr xs => decide (xs.length < 100)
  | .str s => decide (s.length < 100)
  | _ => false

/-- Embeds `Object.keys(v).length === 0 && v.constructor === Object`: only
a plain object with no keys passes (an empty array has constructor
`Array`, primitives have `String`/`Number` constructors). -/
def JsVal.isEmptyPlainObject (v : JsVal) : Bool :=
  match v with
  | .obj fields => fields.isEmpty
  | _ => false

mutual
/-- Embeds JavaScript string coercion `String(v)` as used by template
interpolation and property keys: arrays join their coerced elements with
commas, plain objects print as `[object Object]`. -/
def jsToString : JsVal → String
  | .undefVal => "undefined"
  | .num n => toString n
  | .str s => s
  | .arr xs => String.intercalate "," (jsToStringList xs)
  | .obj _ => "[object Object]"

/-- Coerces each element of a list of values to a string (helper for the
array case of `jsToString`). -/
def jsToStringList : List JsVal → List String
  | [] => []
  | x :: xs => jsToString x :: jsToStringList xs
end

/-- HTTP response as exposed by the requester collaborator: `ok`,
`status`, `statusText`, and the parsed JSON body (the `.json()` accessor
is modelled as already applied, since every code path parses the body
right after the ok-check). -/
structure Response where
  ok : Bool
  status : Nat
  statusText : String
  body : JsVal

/-- Errors a fetch can reject with: the `new Error` raised on a non-ok
status (carrying the formatted message and, via `error.response = response`,
the raw response), or a TypeError raised by calling a missing method such
as `concat` on a plain object. -/
inductive JsError where
  | httpError : String → Response → JsError
  | typeError : String → JsError

/-- Embeds `a.concat(b)`: arrays spread an array argument and append any
other value as a single element; strings coerce the argument and append;
plain objects, numbers and `undefined` have no `concat` method, so the
call throws a TypeError. -/
def jsConcat (a b : JsVal) : Except JsError JsVal :=
  match a, b with
  | .arr xs, .arr ys => .ok (.arr (xs ++ ys))
  | .arr xs, v => .ok (.arr (xs ++ [v]))
  | .str s, v => .ok (.str (s ++ jsToString v))
  | _, _ => .error (.typeError "json.data.concat is not a function")

/-- The network: `requester.get` maps a URI to its response.  The facade
performs no retries, so one total map per scenario suffices. -/
abbrev Env := String → Response

/-- Embeds `getPaginatedJson(uri)` from `src/adminApi.js`.  Returns the
trace of URIs passed to `requester.get` (in issue order) and the settled
outcome (`none` when the fuel bound is hit, modelling a chain of `next`
links the recursion never finishes).

Source, step by step:
  * `requester.get(uri)` — one trace entry;
  * non-ok response: throw an `Error` with message
    `uri: status statusText` and the response attached;
  * body without a `data` property: resolve with the body unchanged;
  * `data` present, `next` absent: an empty plain object `data`
    normalises to `[]`, anything else resolves unchanged;
  * `next` present: `data.length < 100` resolves with `data` alone
    (the loop-guard hack), otherwise recursively fetch `next` and
    resolve with `data.concat(rest)` — which throws a TypeError when
    `data` is a plain object. -/
def getPaginatedJson (env : Env) : Nat → String → List String × Option (Except JsError JsVal)
  | 0, _ => ([], none)
  | fuel+1, uri =>
    let response := env uri
    if !response.ok then
      ([uri], some (.error (.httpError
        (uri ++ ": " ++ toString response.status ++ " " ++ response.statusText) response)))
    else
      let json := response.body
      if !json.hasOwn "data" then
        ([uri], some (.ok json))
      else
        let data := json.getOwn "data"
        if !json.hasOwn "next" then
          if data.isEmptyPlainObject then
            ([uri], some (.ok (.arr [])))
          else
            ([uri], some (.ok data))
        else if data.lengthLt100 then
          ([uri], some (.ok data))
        else
          let rest := getPaginatedJson env fuel (jsToString (json.getOwn "next"))
          (uri :: rest.1, rest.2.map (fun r =>
            match r with
            | .error e => .error e
            | .ok v => jsConcat data v))

/-- JS object property assignment `m[k] = v` on a plain mapping used as a
dictionary: updating an existing key keeps its position, a new key is
appended after the existing ones (JS insertion order). -/
def setKey {α : Type} : List (String × α) → String → α → List (String × α)
  | [], k, v => [(k, v)]
  | (k', v') :: rest, k, v =>
    if k' = k then (k, v) :: rest else (k', v') :: setKey rest k v

/-- JS object property read `m[k]` on a plain mapping: `some` the stored
value, `none` for an absent key (undefined). -/
def getKey {α : Type} : List (String × α) → String → Option α
  | [], _ => none
  | (k', v) :: rest, k => if k' = k then some v else getKey rest k

/-- Embeds `new Map(pairs)`: entries inserted in order, later duplicate
keys overwriting earlier ones. -/
def mkMap (pairs : List (String × JsVal)) : List (String × JsVal) :=
  pairs.foldl (fun m kv => setKey m kv.1 kv.2) []

/-- The outcome a cached promise settles with (`none` = never settles). -/
abbrev Outcome := Option (Except JsError JsVal)

/-- The module-level mutable bindings of `src/adminApi.js`
(`let pluginSchemasCache; let kongVersionCache; let resultsCache = \x7b\x7d;`).
They live at module scope, so one value of this state is shared by every
facade instance created in the process. -/
structure ModuleState where
  pluginSchemasCache : Option (List (String × JsVal))
  kongVersionCache : Option JsVal
  resultsCache : List (String × Outcome)

/-- The module-load initial state: both singleton caches unset and the
results cache an empty object. -/
def initialModuleState : ModuleState :=
  { pluginSchemasCache := none, kongVersionCache := none, resultsCache := [] }

/-- Embeds `getPaginatedJsonCache(uri)`: on a hit return the stored
promise (no network call, state unchanged); on a miss run the real
aggregator, store the resulting promise under the URI, and return it.
Result: ((trace of this call, settled outcome), new module state). -/
def getPaginatedJsonCache (env : Env) (fuel : Nat) (st : ModuleState) (uri : String) :
    (List String × Outcome) × ModuleState :=
  match getKey st.resultsCache uri with
  | some cached => (([], cached), st)
  | none =>
    let result := getPaginatedJson env fuel uri
    (result, { st with resultsCache := setKey st.resultsCache uri result.2 })

/-- A facade instance as returned by the default export: the configuration
captured by `createApi`'s closures.  The router collaborator is modelled
as a map from endpoint name and parameter list to a URI. -/
structure Api where
  router : String → List String → String
  ignoreConsumers : Bool
  ignoreUndeclaredConsumers : Bool
  consumers : Option (List JsVal)
  cache : Bool
  concurrency : Nat

/-- Embeds the `cache ? getPaginatedJsonCache : getPaginatedJson`
selection performed by the default export: the fetch used by every
accessor of the instance. -/
def Api.paginated (api : Api) (env : Env) (fuel : Nat) (st : ModuleState) (uri : String) :
    (List String × Outcome) × ModuleState :=
  if api.cache then getPaginatedJsonCache env fuel st uri
  else (getPaginatedJson env fuel uri, st)

/-- Embeds the state effect of `requestEndpoint`: `resultsCache = \x7b\x7d`
resets the module-level results cache wholesale before the request is
issued (the request itself goes through `requester.request`, outside the
paginated-read trace).  The instance argument mirrors the closure the
caller invokes; the mutation targets the shared module state. -/
def Api.requestEndpoint (_api : Api) (st : ModuleState) : ModuleState :=
  { st with resultsCache := [] }

/-- Embeds `fetchConsumers()`: with `ignoreConsumers` resolve `[]` with no
network call; otherwise fetch the consumers collection and, when
`ignoreUndeclaredConsumers` is set and a declared list was supplied, build
the `declaredConsumers` mapping (with `anonymous` preset) and keep exactly
the fetched consumers whose username looks up truthy in it.  Calling
`.filter` on a non-array result throws a TypeError. -/
def Api.fetchConsumers (api : Api) (env : Env) (fuel : Nat) (st : ModuleState) :
    (List String × Outcome) × ModuleState :=
  if api.ignoreConsumers then
    (([], some (.ok (.arr []))), st)
  else
    let fetched := api.paginated env fuel st (api.router "consumers" [])
    ((fetched.1.1, fetched.1.2.map (fun r =>
      match r with
      | .error e => .error e
      | .ok all =>
        if api.ignoreUndeclaredConsumers && api.consumers.isSome then
          let declaredConsumers :=
            (api.consumers.getD []).foldl
              (fun m c => setKey m (jsToString (c.getOwn "username")) true)
              [("anonymous", true)]
          match all with
          | .arr cs => .ok (.arr (cs.filter
              (fun c => (getKey declaredConsumers (jsToString (c.getOwn "username"))).getD false)))
          | _ => .error (.typeError "all.filter is not a function")
        else .ok all)), fetched.2)

/-- Embeds `getEnabledPluginNames(enabledPlugins)`: an array is returned
as-is, anything else goes through `Object.keys` (a plain object yields its
keys, a string its index names, a number has none, and `undefined` throws
a TypeError). -/
def getEnabledPluginNames (enabledPlugins : JsVal) : Except JsError (List JsVal)  :=
  match enabledPlugins with
  | .arr xs => .ok xs
  | .obj fields => .ok (fields.map (fun f => JsVal.str f.1))
  | .str s => .ok ((List.range s.length).map (fun i => JsVal.str (toString i)))
  | .num _ => .ok []
  | .undefVal => .error (.typeError "Cannot convert undefined to object")

/-- Embeds `getPluginScheme(plugin, schemaRoute)`: fetch the schema URI
with the module-level (uncached) `getPaginatedJson` and resolve with the
pair `[plugin, fields]`, destructuring `fields` from the result. -/
def getPluginScheme (env : Env) (fuel : Nat) (router : String → List String → String)
    (plugin : String) : List String × Option (Except JsError (String × JsVal)) :=
  let fetched := getPaginatedJson env fuel (router "plugins-scheme" [plugin])
  (fetched.1, fetched.2.map (fun r =>
    match r with
    | .error e => .error e
    | .ok json => .ok (plugin, json.getOwn "fields")))

/-- Embeds the `Promise.map(names, plugin => getPluginScheme(...),
\x7bconcurrency\x7d)` fan-out as its sequential linearisation: the resolved
list preserves the input order (which `Promise.map` guarantees regardless
of the concurrency bound); a rejection of any schema fetch rejects the
whole map. -/
def mapPluginSchemes (env : Env) (fuel : Nat) (router : String → List String → String) :
    List String → List String × Option (Except JsError (List (String × JsVal)))
  | [] => ([], some (.ok []))
  | plugin :: rest =>
    let head := getPluginScheme env fuel router plugin
    match head.2 with
    | none => (head.1, none)
    | some (.error e) => (head.1, some (.error e))
    | some (.ok pair) =>
      let tail := mapPluginSchemes env fuel router rest
      (head.1 ++ tail.1, tail.2.map (fun r =>
        match r with
        | .error e => .error e
        | .ok pairs => .ok (pair :: pairs)))

/-- Embeds `fetchPluginSchemas()`: return the module-level cache when set;
otherwise fetch the enabled-plugins descriptor through the instance fetch,
normalise it to a name list, fetch every schema, build the map, and store
it in `pluginSchemasCache` — only a fully successful chain performs the
assignment. -/
def Api.fetchPluginSchemas (api : Api) (env : Env) (fuel : Nat) (st : ModuleState) :
    (List String × Option (Except JsError (List (String × JsVal)))) × ModuleState :=
  match st.pluginSchemasCache with
  | some cached => (([], some (.ok cached)), st)
  | none =>
    let fetched := api.paginated env fuel st (api.router "plugins-enabled" [])
    match fetched.1.2 with
    | none => ((fetched.1.1, none), fetched.2)
    | some (.error e) => ((fetched.1.1, some (.error e)), fetched.2)
    | some (.ok json) =>
      match getEnabledPluginNames (json.getOwn "enabled_plugins") with
      | .error e => ((fetched.1.1, some (.error e)), fetched.2)
      | .ok names =>
        let mapped := mapPluginSchemes env fuel api.router (names.map jsToString)
        match mapped.2 with
        | none => ((fetched.1.1 ++ mapped.1, none), fetched.2)
        | some (.error e) => ((fetched.1.1 ++ mapped.1, some (.error e)), fetched.2)
        | some (.ok pairs) =>
          ((fetched.1.1 ++ mapped.1, some (.ok (mkMap pairs))),
            { fetched.2 with pluginSchemasCache := some (mkMap pairs) })

/-- Embeds `fetchKongVersion()` with the external `parseVersion`
collaborator passed in: return the module-level cache when set, otherwise
fetch the root endpoint, extract `version`, parse it, and store the parsed
value in `kongVersionCache`. -/
def Api.fetchKongVersion (api : Api) (parseVersion : JsVal → JsVal) (env : Env) (fuel : Nat)
    (st : ModuleState) : (List String × Outcome) × ModuleState :=
  match st.kongVersionCache with
  | some cached => (([], some (.ok cached)), st)
  | none =>
    let fetched := api.paginated env fuel st (api.router "root" [])
    match fetched.1.2 with
    | none => ((fetched.1.1, none), fetched.2)
    | some (.error e) => ((fetched.1.1, some (.error e)), fetched.2)
    | some (.ok json) =>
      let v := parseVersion (json.getOwn "version")
      ((fetched.1.1, some (.ok v)), { fetched.2 with kongVersionCache := some v })

/-- True when the page served at `uri` stops the pagination recursion by
body shape alone: no `data` property, no `next` property, or a `data`
whose length compares below 100. -/
def pageStops (env : Env) (uri : String) : Bool :=
  let body := (env uri).body
  !body.hasOwn "data" || !body.hasOwn "next" || (body.getOwn "data").lengthLt100

/-- The URI the aggregator follows from the page at `uri` when it does
recurse. -/
def pageNextUri (env : Env) (uri : String) : String :=
  jsToString ((env uri).body.getOwn "next")

/-- The chain of `next` links starting at `uri` reaches, within `k` pages,
a page that stops the recursion by shape. -/
def stopsWithin (env : Env) : Nat → String → Bool
  | 0, _ => false
  | k+1, uri => pageStops env uri || stopsWithin env k (pageNextUri env uri)

/-! ## Helper lemmas -/

/-- Lookup after assignment on the plain-object model: reading the
assigned key sees the new value, any other key is untouched. -/
theorem getKey_setKey {α : Type} (m : List (String × α)) (k u : String) (v : α) :
    getKey (setKey m k v) u = if k = u then some v else getKey m u := by
  induction m with
  | nil => simp [setKey, getKey]
  | cons p rest ih =>
    obtain ⟨k', v'⟩ := p
    by_cases h : k' = k
    · subst h
      simp only [setKey, if_pos rfl, getKey]
      by_cases h2 : k' = u <;> simp [h2]
    · simp only [setKey, h, if_false, getKey]
      by_cases h2 : k' = u
      · subst h2
        have : ¬ k = k' := fun hk => h hk.symm
        simp [getKey, this]
      · simp [getKey, h2, ih]

/-- The trace of any fueled aggregator run starts with the URI it was
asked to fetch: the first `requester.get` targets that URI. -/
theorem getPaginatedJson_trace_cons (env : Env) (fuel : Nat) (uri : String) :
    ∃ t, (getPaginatedJson env (fuel + 1) uri).1 = uri :: t := by
  simp only [getPaginatedJson]
  repeat' split
  all_goals exact ⟨_, rfl⟩

/-- When the chain of `next` links from `uri` reaches a stopping page
within `k` steps, the aggregator settles within fuel `k`. -/
theorem stopsWithin_isSome (env : Env) :
    ∀ (k : Nat) (uri : String), stopsWithin env k uri = true →
      (getPaginatedJson env k uri).2.isSome = true := by
  intro k
  induction k with
  | zero =>
    intro uri h
    simp [stopsWithin] at h
  | succ k ih =>
    intro uri h
    cases hok : (env uri).ok with
    | false => simp [getPaginatedJson, hok]
    | true =>
      cases hd : (env uri).body.hasOwn "data" with
      | false => simp [getPaginatedJson, hok, hd]
      | true =>
        cases hn : (env uri).body.hasOwn "next" with
        | false =>
          cases he : ((env uri).body.getOwn "data").isEmptyPlainObject with
          | false => simp [getPaginatedJson, hok, hd, hn, he]
          | true => simp [getPaginatedJson, hok, hd, hn, he]
        | true =>
          cases hl : ((env uri).body.getOwn "data").lengthLt100 with
          | true => simp [getPaginatedJson, hok, hd, hn, hl]
          | false =>
            have hstop : pageStops env uri = false := by
              simp [pageStops, hd, hn, hl]
            have h2 : stopsWithin env k (pageNextUri env uri) = true := by
              simp [stopsWithin, hstop] at h
              exact h
            have h3 := ih (pageNextUri env uri) h2
            simp only [pageNextUri] at h3
            simp [getPaginatedJson, hok, hd, hn, hl, h3]

/-! ## C1: following `next` links -/

/-- C1: for a GET response whose body has both a `data` (list) field and a
`next` field, the aggregator returns `data` alone with a single network
call when `data.length < 100`; otherwise it recursively fetches `next` and
returns `data` concatenated in front of the recursive result; and the
recursion settles whenever the link chain reaches, within the fuel bound,
a page with `data.length < 100` or without `next` (or without `data`). -/
theorem pagination_follows_next (env : Env) (uri n : String) (xs : List JsVal)
    (hok : (env uri).ok = true)
    (hd : (env uri).body.hasOwn "data" = true)
    (hdv : (env uri).body.getOwn "data" = .arr xs)
    (hn : (env uri).body.hasOwn "next" = true)
    (hnv : (env uri).body.getOwn "next" = .str n) :
    (xs.length < 100 →
      ∀ fuel, getPaginatedJson env (fuel + 1) uri = ([uri], some (.ok (.arr xs)))) ∧
    (¬ xs.length < 100 →
      ∀ fuel tr ys, getPaginatedJson env fuel n = (tr, some (.ok (.arr ys))) →
        getPaginatedJson env (fuel + 1) uri = (uri :: tr, some (.ok (.arr (xs ++ ys))))) ∧
    (∀ k, stopsWithin env k uri = true → (getPaginatedJson env k uri).2.isSome = true) := by
  refine ⟨?_, ?_, fun k h => stopsWithin_isSome env k uri h⟩
  · intro hlt fuel
    simp [getPaginatedJson, hok, hd, hdv, hn, JsVal.lengthLt100, hlt]
  · intro hge fuel tr ys hrec
    have hl : (JsVal.arr xs).lengthLt100 = false := by
      simp [JsVal.lengthLt100, hge]
    simp [getPaginatedJson, hok, hd, hdv, hn, hnv, hl, jsToString, hrec, jsConcat]

/-! ## C2: final page, `next` absent -/

/-- C2: for a GET response whose body has a `data` field and no `next`
field, the aggregator resolves with one network call: an empty plain
object `data` normalises to the empty sequence, any other `data` is
returned unchanged — in particular a list `data` is returned as-is. -/
theorem pagination_no_next (env : Env) (uri : String) (d : JsVal)
    (hok : (env uri).ok = true)
    (hd : (env uri).body.hasOwn "data" = true)
    (hdv : (env uri).body.getOwn "data" = d)
    (hn : (env uri).body.hasOwn "next" = false) :
    (d.isEmptyPlainObject = true →
      ∀ fuel, getPaginatedJson env (fuel + 1) uri = ([uri], some (.ok (.arr [])))) ∧
    (d.isEmptyPlainObject = false →
      ∀ fuel, getPaginatedJson env (fuel + 1) uri = ([uri], some (.ok d))) ∧
    (∀ xs, d = .arr xs →
      ∀ fuel, getPaginatedJson env (fuel + 1) uri = ([uri], some (.ok (.arr xs)))) := by
  refine ⟨?_, ?_, ?_⟩
  · intro he fuel
    simp [getPaginatedJson, hok, hd, hdv, hn, he]
  · intro he fuel
    simp [getPaginatedJson, hok, hd, hdv, hn, he]
  · intro xs hxs fuel
    subst hxs
    simp [getPaginatedJson, hok, hd, hdv, hn, JsVal.isEmptyPlainObject]

/-! ## C3: non-ok response rejects -/

/-- C3: a GET response whose status is not ok makes the fetch reject with
an Error whose message is the URI, status code and status text in the
source template, carrying the raw response; the trace is the single
triggering GET, so no pagination follow-up happens, and the rejection
holds for every body, so nothing is parsed from it. -/
theorem fetch_rejects_on_http_error (env : Env) (uri : String)
    (hok : (env uri).ok = false) :
    ∀ fuel, getPaginatedJson env (fuel + 1) uri =
      ([uri], some (.error (.httpError
        (uri ++ ": " ++ toString (env uri).status ++ " " ++ (env uri).statusText)
        (env uri)))) := by
  intro fuel
  simp [getPaginatedJson, hok]

/-! ## C9: plain-object `data` with `next` present -/

/-- C9: for a GET response whose body has a plain-object `data` and a
`next` field, the empty-object normalisation does not apply, the length
guard is false (a plain object has no numeric length), so the aggregator
never resolves successfully: it issues the follow-up fetch and, when that
fetch resolves, rejects with the TypeError from `data.concat`. -/
theorem pagination_object_data_with_next (env : Env) (uri n : String)
    (fs : List (String × JsVal))
    (hok : (env uri).ok = true)
    (hd : (env uri).body.hasOwn "data" = true)
    (hdv : (env uri).body.getOwn "data" = .obj fs)
    (hn : (env uri).body.hasOwn "next" = true)
    (hnv : (env uri).body.getOwn "next" = .str n) :
    (JsVal.obj fs).lengthLt100 = false ∧
    (∀ fuel tr r, getPaginatedJson env fuel uri = (tr, some r) → ∃ e, r = .error e) ∧
    (∀ fuel tr v, getPaginatedJson env fuel n = (tr, some (.ok v)) →
      getPaginatedJson env (fuel + 1) uri =
        (uri :: tr, some (.error (.typeError "json.data.concat is not a function")))) := by
  have hl : (JsVal.obj fs).lengthLt100 = false := rfl
  have hstep : ∀ fuel, getPaginatedJson env (fuel + 1) uri =
      (uri :: (getPaginatedJson env fuel n).1,
        ((getPaginatedJson env fuel n).2).map (fun r =>
          match r with
          | .error e => .error e
          | .ok v => jsConcat (.obj fs) v)) := by
    intro fuel
    simp [getPaginatedJson, hok, hd, hdv, hn, hnv, jsToString, hl]
  refine ⟨rfl, ?_, ?_⟩
  · intro fuel tr r hr
    match fuel with
    | 0 => simp [getPaginatedJson] at hr
    | fuel + 1 =>
      rw [hstep fuel] at hr
      have h2 := congrArg Prod.snd hr
      simp only at h2
      rcases hr2 : (getPaginatedJson env fuel n).2 with _ | r0
      · rw [hr2] at h2
        simp at h2
      · rw [hr2] at h2
        cases r0 with
        | error e =>
          simp at h2
          exact ⟨e, h2.symm⟩
        | ok v =>
          simp [jsConcat] at h2
          exact ⟨.typeError "json.data.concat is not a function", h2.symm⟩
  · intro fuel tr v hrec
    rw [hstep fuel, hrec]
    simp [jsConcat]

/-! ## C7, C8: consumers fetch -/

/-- The username a consumer object is filtered by: the JS property read
`c.username` coerced to a property key. -/
def usernameOf (c : JsVal) : String := jsToString (c.getOwn "username")

/-- Looking up a username in the mapping `fetchConsumers` builds by
folding assignments over the declared list equals membership in the
declared usernames extended with the initial mapping. -/
theorem getKey_declared_foldl (u : String) (ds : List JsVal) :
    ∀ (m : List (String × Bool)),
      getKey (ds.foldl (fun m c => setKey m (jsToString (c.getOwn "username")) true) m) u =
        if ds.any (fun c => decide (jsToString (c.getOwn "username") = u)) then some true
        else getKey m u := by
  induction ds with
  | nil => intro m; simp
  | cons c rest ih =>
    intro m
    simp only [List.foldl_cons, List.any_cons]
    rw [ih]
    by_cases h : jsToString (c.getOwn "username") = u
    · by_cases h2 : rest.any (fun c => decide (jsToString (c.getOwn "username") = u)) <;>
        simp [h, h2, getKey_setKey]
    · by_cases h2 : rest.any (fun c => decide (jsToString (c.getOwn "username") = u)) <;>
        simp [h, h2, getKey_setKey]

/-- The truthiness filter over the built `declaredConsumers` mapping keeps
exactly the consumers whose username is `anonymous` or declared. -/
theorem declared_filter (ds xs : List JsVal) :
    xs.filter (fun c =>
      (getKey (ds.foldl (fun m c => setKey m (jsToString (c.getOwn "username")) true)
          [("anonymous", true)]) (jsToString (c.getOwn "username"))).getD false) =
    xs.filter (fun c => decide (usernameOf c = "anonymous") ||
      ds.any (fun d => decide (usernameOf d = usernameOf c))) := by
  refine List.filter_congr ?_
  intro c _
  rw [getKey_declared_foldl]
  simp only [usernameOf]
  by_cases ha : jsToString (c.getOwn "username") = "anonymous"
  · by_cases hany :
        ds.any (fun d => decide (jsToString (d.getOwn "username") = jsToString (c.getOwn "username"))) <;>
      simp [getKey, ha, hany]
  · have ha2 : ¬ "anonymous" = jsToString (c.getOwn "username") := fun h => ha h.symm
    by_cases hany :
        ds.any (fun d => decide (jsToString (d.getOwn "username") = jsToString (c.getOwn "username"))) <;>
      simp [getKey, ha, ha2, hany]

/-- C7: with `ignoreConsumers` configured, `fetchConsumers` resolves with
the empty sequence, performs no network call (empty trace), and leaves the
module state untouched. -/
theorem ignore_consumers_no_network (api : Api) (env : Env) (fuel : Nat) (st : ModuleState)
    (h : api.ignoreConsumers = true) :
    Api.fetchConsumers api env fuel st = (([], some (.ok (.arr []))), st) := by
  simp [Api.fetchConsumers, h]

/-- C8: with `ignoreUndeclaredConsumers` configured and a declared list
supplied, `fetchConsumers` keeps exactly the fetched consumers whose
username is `anonymous` or appears among the declared usernames, in
fetched order. -/
theorem consumers_filtered_to_declared (api : Api) (env : Env) (fuel : Nat)
    (st st2 : ModuleState) (ds : List JsVal) (tr : List String) (xs : List JsVal)
    (h0 : api.ignoreConsumers = false)
    (h1 : api.ignoreUndeclaredConsumers = true)
    (h2 : api.consumers = some ds)
    (h3 : api.paginated env fuel st (api.router "consumers" []) = ((tr, some (.ok (.arr xs))), st2)) :
    Api.fetchConsumers api env fuel st =
      ((tr, some (.ok (.arr (xs.filter (fun c =>
        decide (usernameOf c = "anonymous") ||
          ds.any (fun d => decide (usernameOf d = usernameOf c))))))), st2) := by
  simp only [Api.fetchConsumers, h0, Bool.false_eq_true, if_false, h3, h1, h2]
  simp only [Option.isSome_some, Bool.and_self, if_true, Option.map_some', Option.getD_some]
  rw [declared_filter]

/-! ## C5: requestEndpoint invalidation -/

/-- C5: any `requestEndpoint` call resets the results cache to the empty
mapping wholesale — every key is gone, not just the cached one — so a
subsequent cached read of a previously cached URI misses and issues a
fresh `requester.get` for that URI. -/
theorem requestEndpoint_clears_results_cache (api : Api) (env : Env) (fuel : Nat)
    (st : ModuleState) (uri : String) (c : Outcome)
    (_hcached : getKey st.resultsCache uri = some c) :
    (Api.requestEndpoint api st).resultsCache = [] ∧
    (∀ u, getKey (Api.requestEndpoint api st).resultsCache u = none) ∧
    (∃ t, ((getPaginatedJsonCache env (fuel + 1) (Api.requestEndpoint api st) uri).1).1
        = uri :: t) := by
  refine ⟨rfl, fun u => rfl, ?_⟩
  obtain ⟨t, ht⟩ := getPaginatedJson_trace_cons env fuel uri
  exact ⟨t, by simp [getPaginatedJsonCache, Api.requestEndpoint, getKey, ht]⟩

/-! ## C10: rejected promises are cached -/

/-- C10: with caching enabled, a fetch whose aggregation rejects stores
the rejected promise under the URI; every later cached fetch of that URI
— under any backend — returns the same rejection with no network call,
until a `requestEndpoint` call empties the cache again. -/
theorem failed_fetch_cached_until_reset (api : Api) (env : Env) (fuel : Nat)
    (st : ModuleState) (uri : String) (tr : List String) (e : JsError)
    (hmiss : getKey st.resultsCache uri = none)
    (hfail : getPaginatedJson env fuel uri = (tr, some (.error e))) :
    getPaginatedJsonCache env fuel st uri =
      ((tr, some (.error e)),
        { st with resultsCache := setKey st.resultsCache uri (some (.error e)) }) ∧
    (∀ (env2 : Env) (fuel2 : Nat),
      getPaginatedJsonCache env2 fuel2
          { st with resultsCache := setKey st.resultsCache uri (some (.error e)) } uri =
        (([], some (.error e)),
          { st with resultsCache := setKey st.resultsCache uri (some (.error e)) })) ∧
    getKey (Api.requestEndpoint api
      { st with resultsCache := setKey st.resultsCache uri (some (.error e)) }).resultsCache
      uri = none := by
  refine ⟨?_, ?_, rfl⟩
  · simp [getPaginatedJsonCache, hmiss, hfail]
  · intro env2 fuel2
    simp [getPaginatedJsonCache, getKey_setKey]

/-! ## C6: plugin schema cache -/

/-- C6: a set `pluginSchemasCache` short-circuits `fetchPluginSchemas`
with no network call and no state change; an unset cache is populated by
the first fully successful fetch, after which every later call — under
any backend, in particular one whose enabled-plugin set changed — returns
the cached map unchanged with no network call; and `requestEndpoint`
never touches this cache. -/
theorem plugin_schemas_cached_once (api : Api) (env : Env) (fuel : Nat) (st : ModuleState) :
    (∀ m, st.pluginSchemasCache = some m →
      Api.fetchPluginSchemas api env fuel st = (([], some (.ok m)), st)) ∧
    (∀ json names pairs stA tr1 tr2,
      st.pluginSchemasCache = none →
      api.paginated env fuel st (api.router "plugins-enabled" []) = ((tr1, some (.ok json)), stA) →
      getEnabledPluginNames (json.getOwn "enabled_plugins") = .ok names →
      mapPluginSchemes env fuel api.router (names.map jsToString) = (tr2, some (.ok pairs)) →
      Api.fetchPluginSchemas api env fuel st =
        ((tr1 ++ tr2, some (.ok (mkMap pairs))),
          { stA with pluginSchemasCache := some (mkMap pairs) }) ∧
      (∀ (env2 : Env) (fuel2 : Nat),
        Api.fetchPluginSchemas api env2 fuel2
            { stA with pluginSchemasCache := some (mkMap pairs) } =
          (([], some (.ok (mkMap pairs))),
            { stA with pluginSchemasCache := some (mkMap pairs) }))) ∧
    (Api.requestEndpoint api st).pluginSchemasCache = st.pluginSchemasCache := by
  refine ⟨?_, ?_, rfl⟩
  · intro m hm
    simp [Api.fetchPluginSchemas, hm]
  · intro json names pairs stA tr1 tr2 hnone hfetch hnames hmap
    constructor
    · simp [Api.fetchPluginSchemas, hnone, hfetch, hnames, hmap]
    · intro env2 fuel2
      simp [Api.fetchPluginSchemas]

/-! ## C4: cache locality across instances -/

/-- A first facade instance for the cache-locality scenario, with caching
enabled. -/
def apiOne : Api :=
  { router := fun _ _ => "u", ignoreConsumers := false, ignoreUndeclaredConsumers := false,
    consumers := none, cache := true, concurrency := 1 }

/-- A second, independently created facade instance with its own distinct
configuration. -/
def apiTwo : Api :=
  { router := fun _ _ => "u", ignoreConsumers := true, ignoreUndeclaredConsumers := true,
    consumers := some [], cache := true, concurrency := 10 }

/-- Backend for the cache-locality scenario: every URI serves a one-item
collection. -/
def envShared : Env :=
  fun _ => { ok := true, status := 200, statusText := "OK",
             body := .obj [("data", .arr [.num 7])] }

/-- A module state in which the results cache holds a previously cached
read of `u`. -/
def stShared : ModuleState :=
  { pluginSchemasCache := none, kongVersionCache := none,
    resultsCache := [("u", some (.ok (.arr [.num 7])))] }

/-- C4 counterexample: `requestEndpoint` through the first instance does
change the cache behaviour observed through the second instance — before
it, the second instance's read of the previously cached `u` is served from
the cache with no network call (empty trace); after it, the same read
issues a fresh `requester.get` — because all instances share the
module-level caches.  This refutes the claim that independently created
facade instances have instance-owned, mutually isolated caches. -/
theorem caches_not_instance_isolated :
    ¬ ((apiTwo.paginated envShared 1 (Api.requestEndpoint apiOne stShared) "u").1.1 =
       (apiTwo.paginated envShared 1 stShared "u").1.1) := by
  intro h
  have h1 : (apiTwo.paginated envShared 1 (Api.requestEndpoint apiOne stShared) "u").1.1
      = ["u"] := rfl
  have h2 : (apiTwo.paginated envShared 1 stShared "u").1.1 = [] := rfl
  rw [h1, h2] at h
  exact List.noConfusion h

/-- C4 amended: the three caches are module-level state shared
process-wide by every facade instance; `requestEndpoint` performs the same
state change whichever instance it is invoked through, resetting the
shared results cache wholesale (while the schema and version caches
persist), so a subsequent cached read through any other instance misses
and issues a fresh network call. -/
theorem caches_shared_module_wide (a b : Api) (st : ModuleState) (env : Env) (fuel : Nat)
    (uri : String) (hb : b.cache = true) :
    Api.requestEndpoint a st = Api.requestEndpoint b st ∧
    (Api.requestEndpoint a st).resultsCache = [] ∧
    (Api.requestEndpoint a st).pluginSchemasCache = st.pluginSchemasCache ∧
    (Api.requestEndpoint a st).kongVersionCache = st.kongVersionCache ∧
    (∃ t, (b.paginated env (fuel + 1) (Api.requestEndpoint a st) uri).1.1 = uri :: t) := by
  refine ⟨rfl, rfl, rfl, rfl, ?_⟩
  obtain ⟨t, ht⟩ := getPaginatedJson_trace_cons env fuel uri
  exact ⟨t, by simp [Api.paginated, hb, getPaginatedJsonCache, Api.requestEndpoint, getKey, ht]⟩

/-! ## Concrete witness scenarios -/

/-- Backend for the C1 witness: page `a` has 100 items and links to `b`;
page `b` is final. -/
def envC1 : Env := fun uri =>
  if uri = "a" then
    { ok := true, status := 200, statusText := "OK",
      body := .obj [("data", .arr (List.replicate 100 (.num 0))), ("next", .str "b")] }
  else
    { ok := true, status := 200, statusText := "OK",
      body := .obj [("data", .arr [.num 1])] }

/-- C1 witness: on the two-page backend the aggregator fetches `a` then
`b` and returns the 100 items of `a` followed by the item of `b`; the
final page settles alone; and the chain is recognised as stopping within
two pages. -/
theorem pagination_follows_next_witness :
    getPaginatedJson envC1 2 "a" =
      (["a", "b"], some (.ok (.arr (List.replicate 100 (.num 0) ++ [.num 1])))) ∧
    getPaginatedJson envC1 1 "b" = (["b"], some (.ok (.arr [.num 1]))) ∧
    stopsWithin envC1 2 "a" = true := by
  refine ⟨?_, rfl, rfl⟩
  exact (pagination_follows_next envC1 "a" "b" (List.replicate 100 (JsVal.num 0))
    rfl rfl rfl rfl rfl).2.1 (by decide) 1 ["b"] [JsVal.num 1] rfl

/-- Backend for the C2 witness: URI `e` serves `data = \x7b\x7d` with no
`next`, URI `l` serves a two-item list with no `next`. -/
def envC2 : Env := fun uri =>
  if uri = "e" then
    { ok := true, status := 200, statusText := "OK", body := .obj [("data", .obj [])] }
  else
    { ok := true, status := 200, statusText := "OK",
      body := .obj [("data", .arr [.num 1, .num 2])] }

/-- C2 witness: the empty-object page normalises to the empty sequence
and the list page is returned unchanged. -/
theorem pagination_no_next_witness :
    getPaginatedJson envC2 1 "e" = (["e"], some (.ok (.arr []))) ∧
    getPaginatedJson envC2 1 "l" = (["l"], some (.ok (.arr [.num 1, .num 2]))) := by
  constructor
  · exact (pagination_no_next envC2 "e" (.obj []) rfl rfl rfl rfl).1 rfl 0
  · exact (pagination_no_next envC2 "l" (.arr [.num 1, .num 2]) rfl rfl rfl rfl).2.2
      [.num 1, .num 2] rfl 0

/-- Backend for the C3 witness: every URI 404s. -/
def envC3 : Env := fun _ =>
  { ok := false, status := 404, statusText := "Not Found",
    body := .obj [("data", .arr []), ("next", .str "q")] }

/-- C3 witness: the fetch of `missing` rejects with the formatted message
and the raw response after the single triggering GET, although the body
even carries `data` and `next` fields. -/
theorem fetch_rejects_on_http_error_witness :
    getPaginatedJson envC3 1 "missing" =
      (["missing"], some (.error (.httpError "missing: 404 Not Found" (envC3 "missing")))) := by
  have h := fetch_rejects_on_http_error envC3 "missing" rfl 0
  exact h.trans (by rfl)

/-- Backend for the C9 witness: page `a` carries a plain-object `data`
and a `next` link to the final page `b`. -/
def envC9 : Env := fun uri =>
  if uri = "a" then
    { ok := true, status := 200, statusText := "OK",
      body := .obj [("data", .obj [("x", .num 1)]), ("next", .str "b")] }
  else
    { ok := true, status := 200, statusText := "OK", body := .obj [("data", .arr [])] }

/-- C9 witness: the object-`data` page fetches its `next` page and then
rejects with the TypeError from `data.concat`. -/
theorem pagination_object_data_with_next_witness :
    getPaginatedJson envC9 2 "a" =
      (["a", "b"], some (.error (.typeError "json.data.concat is not a function"))) := by
  exact (pagination_object_data_with_next envC9 "a" "b" [("x", .num 1)]
    rfl rfl rfl rfl rfl).2.2 1 ["b"] (.arr []) rfl

/-- Facade instance for the C7 witness, configured to ignore all
consumers. -/
def apiC7 : Api :=
  { router := fun _ _ => "cs", ignoreConsumers := true, ignoreUndeclaredConsumers := false,
    consumers := none, cache := false, concurrency := 1 }

/-- Backend for the C7 witness (would serve consumers, but must never be
contacted). -/
def envC7 : Env := fun _ =>
  { ok := true, status := 200, statusText := "OK",
    body := .obj [("data", .arr [.obj [("username", .str "alice")]])] }

/-- C7 witness: with `ignoreConsumers` set the fetch resolves `[]` with an
empty network trace and untouched state. -/
theorem ignore_consumers_no_network_witness :
    Api.fetchConsumers apiC7 envC7 1 initialModuleState =
      (([], some (.ok (.arr []))), initialModuleState) :=
  ignore_consumers_no_network apiC7 envC7 1 initialModuleState rfl

/-- Facade instance for the C8 witness: undeclared consumers ignored,
declared list `[alice]`. -/
def apiC8 : Api :=
  { router := fun _ _ => "cs", ignoreConsumers := false, ignoreUndeclaredConsumers := true,
    consumers := some [.obj [("username", .str "alice")]], cache := false, concurrency := 1 }

/-- Backend for the C8 witness: the consumers collection holds `alice`,
`bob` and `anonymous`. -/
def envC8 : Env := fun _ =>
  { ok := true, status := 200, statusText := "OK",
    body := .obj [("data", .arr [.obj [("username", .str "alice")],
      .obj [("username", .str "bob")], .obj [("username", .str "anonymous")]])] }

/-- C8 witness: fetched `[alice, bob, anonymous]` filtered against
declared `[alice]` yields `[alice, anonymous]` in fetched order. -/
theorem consumers_filtered_to_declared_witness :
    Api.fetchConsumers apiC8 envC8 1 initialModuleState =
      ((["cs"], some (.ok (.arr [.obj [("username", .str "alice")],
        .obj [("username", .str "anonymous")]]))), initialModuleState) := by
  have h := consumers_filtered_to_declared apiC8 envC8 1 initialModuleState initialModuleState
    [.obj [("username", .str "alice")]] ["cs"]
    [.obj [("username", .str "alice")], .obj [("username", .str "bob")],
      .obj [("username", .str "anonymous")]]
    rfl rfl rfl (by rfl)
  exact h.trans (by rfl)

/-- Facade instance for the C5 witness. -/
def apiC5 : Api :=
  { router := fun _ _ => "u", ignoreConsumers := false, ignoreUndeclaredConsumers := false,
    consumers := none, cache := true, concurrency := 1 }

/-- Backend for the C5 witness. -/
def envC5 : Env := fun _ =>
  { ok := true, status := 200, statusText := "OK", body := .obj [("data", .arr [.num 3])] }

/-- Module state for the C5 witness, holding a previously cached read of
`u`. -/
def stC5 : ModuleState :=
  { pluginSchemasCache := none, kongVersionCache := none,
    resultsCache := [("u", some (.ok (.arr [.num 3])))] }

/-- C5 witness: after `requestEndpoint` the results cache is empty and a
read of the previously cached `u` issues a fresh GET to `u`. -/
theorem requestEndpoint_clears_results_cache_witness :
    (Api.requestEndpoint apiC5 stC5).resultsCache = [] ∧
    ((getPaginatedJsonCache envC5 1 (Api.requestEndpoint apiC5 stC5) "u").1).1 = ["u"] := by
  have h := requestEndpoint_clears_results_cache apiC5 envC5 0 stC5 "u"
    (some (.ok (.arr [.num 3]))) rfl
  exact ⟨h.1, by rfl⟩

/-- Facade instance for the C10 witness. -/
def apiC10 : Api :=
  { router := fun _ _ => "u", ignoreConsumers := false, ignoreUndeclaredConsumers := false,
    consumers := none, cache := true, concurrency := 1 }

/-- Backend for the C10 witness: the fetch of `u` fails with a 500. -/
def envC10 : Env := fun _ =>
  { ok := false, status := 500, statusText := "Oops", body := .undefVal }

/-- A later, healthy backend for the C10 witness: `u` would now succeed,
but the cached rejection is served instead. -/
def envC10b : Env := fun _ =>
  { ok := true, status := 200, statusText := "OK", body := .obj [("data", .arr [.num 9])] }

/-- The rejection cached in the C10 witness. -/
def errC10 : JsError := .httpError "u: 500 Oops" (envC10 "u")

/-- Module state after the failed fetch of the C10 witness. -/
def stC10 : ModuleState :=
  { pluginSchemasCache := none, kongVersionCache := none,
    resultsCache := [("u", some (.error errC10))] }

/-- C10 witness: the failed fetch of `u` caches its rejection, and a later
fetch of `u` against a now-healthy backend still returns the cached
rejection with no network call. -/
theorem failed_fetch_cached_until_reset_witness :
    getPaginatedJsonCache envC10 1 initialModuleState "u" =
      ((["u"], some (.error errC10)), stC10) ∧
    getPaginatedJsonCache envC10b 5 stC10 "u" = (([], some (.error errC10)), stC10) := by
  have h := failed_fetch_cached_until_reset apiC10 envC10 1 initialModuleState "u" ["u"] errC10
    rfl (by rfl)
  exact ⟨h.1.trans (by rfl), ((h.2.1 envC10b 5).symm.trans (by rfl)).symm⟩

/-- Facade instance for the C6 witness: routes `plugins-enabled` to `pe`
and a schema fetch for plugin `p` to `scheme-p`. -/
def apiC6 : Api :=
  { router := fun name ps => if name = "plugins-enabled" then "pe" else "scheme-" ++ ps.headD "",
    ignoreConsumers := false, ignoreUndeclaredConsumers := false,
    consumers := none, cache := false, concurrency := 1 }

/-- Backend for the first C6 call: one enabled plugin, `acl`, whose
schema declares field list `[f1]`. -/
def envC6 : Env := fun uri =>
  if uri = "pe" then
    { ok := true, status := 200, statusText := "OK",
      body := .obj [("enabled_plugins", .arr [.str "acl"])] }
  else
    { ok := true, status := 200, statusText := "OK",
      body := .obj [("fields", .arr [.str "f1"])] }

/-- Backend for the second C6 call: the enabled-plugin set has changed on
the server, but the facade must not notice. -/
def envC6b : Env := fun _ =>
  { ok := true, status := 200, statusText := "OK",
    body := .obj [("enabled_plugins", .arr [.str "acl", .str "oauth2"])] }

/-- The schema map the first C6 call builds and caches. -/
def mC6 : List (String × JsVal) := [("acl", .arr [.str "f1"])]

/-- Module state after the first C6 call. -/
def stC6 : ModuleState :=
  { pluginSchemasCache := some mC6, kongVersionCache := none, resultsCache := [] }

/-- C6 witness: the first call fetches the descriptor and the `acl`
schema and caches the map; the second call, against a backend whose
enabled plugins changed, returns the cached map unchanged with no network
call. -/
theorem plugin_schemas_cached_once_witness :
    Api.fetchPluginSchemas apiC6 envC6 1 initialModuleState =
      ((["pe", "scheme-acl"], some (.ok mC6)), stC6) ∧
    Api.fetchPluginSchemas apiC6 envC6b 1 stC6 = (([], some (.ok mC6)), stC6) := by
  have h := (plugin_schemas_cached_once apiC6 envC6 1 initialModuleState).2.1
    (.obj [("enabled_plugins", .arr [.str "acl"])]) [.str "acl"] [("acl", .arr [.str "f1"])]
    initialModuleState ["pe"] ["scheme-acl"] rfl (by rfl) rfl (by rfl)
  exact ⟨h.1.trans (by rfl), ((h.2 envC6b 1).symm.trans (by rfl)).symm⟩

/-- C4 amended-claim witness: through two concrete distinct instances,
`requestEndpoint` through the first performs exactly the state change the
second would perform, and the second instance's subsequent cached read of
the previously cached `u` issues a fresh GET. -/
theorem caches_shared_module_wide_witness :
    Api.requestEndpoint apiOne stShared = Api.requestEndpoint apiTwo stShared ∧
    (∃ t, (apiTwo.paginated envShared 1 (Api.requestEndpoint apiOne stShared) "u").1.1
      = "u" :: t) := by
  have h := caches_shared_module_wide apiOne apiTwo stShared envShared 0 "u" rfl
  exact ⟨h.1, h.2.2.2.2⟩

end AdminApi
